import Mathlib

/-!
Verification of the Tool Definition Model, Tabular Transcoder and Evaluation
Engine of the Score-System-Builder application (src/app.py).

The Python functions are shallowly embedded as Lean functions:

* input values are a tagged scalar variant (`Value`), since the application
  passes both strings (from select/text widgets) and numbers (from number
  widgets) into the engine, and Python equality never identifies a number
  with a string;
* the `values` dictionary becomes an association list queried with
  `List.lookup` (Python `dict.get`: `none` for a missing key);
* Python `str.strip()` becomes `pyStrip` (drop whitespace at both ends),
  `", ".join(...)` becomes `joinCSV`, and `str.split(",")` becomes
  `splitOnChar ','`;
* a missing optional dictionary entry (`tool.get("fallback", ...)`) becomes
  an `Option` field.
-/

/-- A scalar input value: Python strings and numbers, which are never equal
to one another under Python `==`. -/
inductive Value where
  | str (s : String)
  | num (n : Int)
deriving DecidableEq, Repr

/-- `Condition` of a recommendation rule: dict
`{"input_id": ..., "op": "equals", "value": ...}` in app.py. -/
structure Condition where
  input_id : String
  op : String
  value : Value
deriving DecidableEq, Repr

/-- `RecommendationRule`: dict `{"name", "level", "message", "conditions"}`. -/
structure RecommendationRule where
  name : String
  level : String
  message : String
  conditions : List Condition
deriving DecidableEq, Repr

/-- `ScoringRule`: dict
`{"input_id", "favor_values", "against_values", "invert_favor"}`. -/
structure ScoringRule where
  input_id : String
  favor_values : List String
  against_values : List String
  invert_favor : Bool
deriving DecidableEq, Repr

/-- `InputField`: dict `{"id", "label", "type", "options"}`. -/
structure InputField where
  id : String
  label : String
  type : String
  options : List String
deriving DecidableEq, Repr

/-- The `(level, message)` shape shared by `fallback` and rule outcomes. -/
structure OutcomeMessage where
  level : String
  message : String
deriving DecidableEq, Repr

/-- `ToolDefinition`: the top-level tool dict.  `fallback` is an `Option`
because `evaluate_rules` reads it with `tool.get("fallback", default)`. -/
structure ToolDefinition where
  name : String
  description : String
  inputs : List InputField
  scoring_rules : List ScoringRule
  rules : List RecommendationRule
  fallback : Option OutcomeMessage
deriving DecidableEq, Repr

/-- The `values` mapping passed to the engine (Python dict keyed by input id). -/
abbrev Values := List (String × Value)

/-! ## Evaluation Engine (app.py lines 193-232) -/

/-- One condition test inside `evaluate_rules`:
`actual = values.get(input_id)` followed by `actual != expected` —
the condition holds iff the key is present and strictly equal. -/
def condHolds (values : Values) (c : Condition) : Bool :=
  decide (List.lookup c.input_id values = some c.value)

/-- The per-rule test of `evaluate_rules`: a rule matches iff its condition
list is non-empty (empty lists are skipped by `if not conditions: continue`)
and every condition holds. -/
def ruleMatches (values : Values) (r : RecommendationRule) : Bool :=
  !r.conditions.isEmpty && r.conditions.all (condHolds values)

/-- The scan of `tool.get("rules", [])` in `evaluate_rules`: first matching
rule's `(level, message)`, or `none` when the loop falls through. -/
def evalRulesAux (values : Values) : List RecommendationRule → Option (String × String)
  | [] => none
  | r :: rest =>
    if r.conditions.isEmpty then evalRulesAux values rest
    else if r.conditions.all (condHolds values) then some (r.level, r.message)
    else evalRulesAux values rest

/-- `fallback = tool.get("fallback", {"level": "warning", "message": "No rules matched."})`
followed by `fallback.get("level", ...), fallback.get("message", ...)`. -/
def fallbackOutcome (tool : ToolDefinition) : String × String :=
  match tool.fallback with
  | some fb => (fb.level, fb.message)
  | none => ("warning", "No rules matched.")

/-- `evaluate_rules(tool, values)` (app.py lines 193-209). -/
def evaluate_rules (tool : ToolDefinition) (values : Values) : String × String :=
  match evalRulesAux values tool.rules with
  | some result => result
  | none => fallbackOutcome tool

/-- Python `value in favor_values` where `value = values.get(input_id)` may be
`None`, a number, or a string, and the list members are strings: only a
present string value can be a member. -/
def valueMem (value : Option Value) (members : List String) : Bool :=
  match value with
  | some (Value.str s) => members.contains s
  | _ => false

/-- The `score` computed for one scoring rule in `compute_scores`
(app.py lines 219-227). -/
def ruleScore (values : Values) (r : ScoringRule) : Int :=
  let value := List.lookup r.input_id values
  if valueMem value r.favor_values then (if r.invert_favor then -1 else 1)
  else if valueMem value r.against_values then (if r.invert_favor then 1 else -1)
  else 0

/-- The accumulator loop of `compute_scores`: `plus`/`minus` start at 0,
rules with falsy `input_id` are skipped, `score == 1` bumps `plus`,
`score == -1` bumps `minus`. -/
def computeScoresAux (values : Values) : List ScoringRule → Int → Int → Int × Int
  | [], plus, minus => (plus, minus)
  | r :: rest, plus, minus =>
    if r.input_id = "" then computeScoresAux values rest plus minus
    else if ruleScore values r = 1 then computeScoresAux values rest (plus + 1) minus
    else if ruleScore values r = -1 then computeScoresAux values rest plus (minus + 1)
    else computeScoresAux values rest plus minus

/-- `compute_scores(tool, values)` (app.py lines 212-232). -/
def compute_scores (tool : ToolDefinition) (values : Values) : Int × Int :=
  computeScoresAux values tool.scoring_rules 0 0

/-- The Bool test "this scoring rule bumps `plus`". -/
def favorPred (values : Values) (r : ScoringRule) : Bool :=
  decide (r.input_id ≠ "") && decide (ruleScore values r = 1)

/-- The Bool test "this scoring rule bumps `minus`". -/
def againstPred (values : Values) (r : ScoringRule) : Bool :=
  decide (r.input_id ≠ "") && decide (ruleScore values r = -1)

/-! ## Tabular Transcoder (app.py lines 61-170) -/

/-- Python `str.strip()` on the character list: drop whitespace from both
ends. -/
def stripChars (l : List Char) : List Char :=
  ((l.dropWhile Char.isWhitespace).reverse.dropWhile Char.isWhitespace).reverse

/-- Python `str.strip()`. -/
def pyStrip (s : String) : String :=
  (stripChars s.toList).asString

/-- Python `str.split(sep)` for a one-character separator: `"" ↦ [""]`,
`"a,,b" ↦ ["a", "", "b"]`. -/
def splitOnChar (sep : Char) : List Char → List (List Char)
  | [] => [[]]
  | c :: cs =>
    match splitOnChar sep cs with
    | [] => [[c]]
    | g :: gs => if c = sep then [] :: g :: gs else (c :: g) :: gs

/-- `normalize_options(options_csv)` (app.py lines 61-66) on its string
branch: split on commas, strip each token, keep the non-empty ones.
(The `isinstance(options_csv, list)` branch never fires here: every
transcoder row stores the CSV field as a string.) -/
def normalize_options (options_csv : String) : List String :=
  if options_csv = "" then []
  else ((splitOnChar ',' options_csv.toList).map
          (fun g => (stripChars g).asString)).filter (fun s => s ≠ "")

/-- Python `", ".join(items)`. -/
def joinCSVChars : List (List Char) → List Char
  | [] => []
  | [x] => x
  | x :: y :: rest => x ++ ',' :: ' ' :: joinCSVChars (y :: rest)

/-- Python `", ".join(items)` on strings. -/
def joinCSV (items : List String) : String :=
  (joinCSVChars (items.map String.toList)).asString

/-- One flat row of the inputs grid: `{"id", "label", "type", "options_csv"}`. -/
structure InputRow where
  id : String
  label : String
  type : String
  options_csv : String
deriving DecidableEq, Repr

/-- One flat row of the scoring grid. -/
structure ScoringRow where
  input_id : String
  favor_values_csv : String
  against_values_csv : String
  invert_favor : Bool
deriving DecidableEq, Repr

/-- One flat row of the recommendation-rule grid: three fixed condition
slots `input_id_{1..3}` / `value_{1..3}`. -/
structure RuleRow where
  name : String
  level : String
  message : String
  input_id_1 : String
  value_1 : Value
  input_id_2 : String
  value_2 : Value
  input_id_3 : String
  value_3 : Value
deriving DecidableEq, Repr

/-- The row built for one input field in `tool_to_input_rows`. -/
def inputRowOfField (item : InputField) : InputRow :=
  { id := item.id, label := item.label, type := item.type,
    options_csv := joinCSV item.options }

/-- `tool_to_input_rows(tool)` (app.py lines 69-80). -/
def tool_to_input_rows (tool : ToolDefinition) : List InputRow :=
  tool.inputs.map inputRowOfField

/-- `input_rows_to_tool(rows)` (app.py lines 83-96): rows with a falsy
(empty) `id` are skipped. -/
def input_rows_to_tool : List InputRow → List InputField
  | [] => []
  | row :: rest =>
    if row.id = "" then input_rows_to_tool rest
    else { id := pyStrip row.id, label := pyStrip row.label, type := row.type,
           options := normalize_options row.options_csv } :: input_rows_to_tool rest

/-- The row built for one scoring rule in `tool_to_scoring_rows`. -/
def scoringRowOfRule (item : ScoringRule) : ScoringRow :=
  { input_id := item.input_id,
    favor_values_csv := joinCSV item.favor_values,
    against_values_csv := joinCSV item.against_values,
    invert_favor := item.invert_favor }

/-- `tool_to_scoring_rows(tool)` (app.py lines 99-110). -/
def tool_to_scoring_rows (tool : ToolDefinition) : List ScoringRow :=
  tool.scoring_rules.map scoringRowOfRule

/-- `scoring_rows_to_tool(rows)` (app.py lines 113-126): rows with a falsy
(empty) `input_id` are skipped. -/
def scoring_rows_to_tool : List ScoringRow → List ScoringRule
  | [] => []
  | row :: rest =>
    if row.input_id = "" then scoring_rows_to_tool rest
    else { input_id := pyStrip row.input_id,
           favor_values := normalize_options row.favor_values_csv,
           against_values := normalize_options row.against_values_csv,
           invert_favor := row.invert_favor } :: scoring_rows_to_tool rest

/-- `conditions[idx].get("input_id", "")` when `idx < len(conditions)`,
else the `""` written for an unused slot (app.py lines 138-146). -/
def condSlotId (conds : List Condition) (idx : Nat) : String :=
  match conds[idx]? with
  | some c => c.input_id
  | none => ""

/-- `conditions[idx].get("value", "")` when `idx < len(conditions)`, else the
`""` written for an unused slot. -/
def condSlotValue (conds : List Condition) (idx : Nat) : Value :=
  match conds[idx]? with
  | some c => c.value
  | none => Value.str ""

/-- The row built for one recommendation rule in `tool_to_rule_rows`. -/
def ruleRowOfRule (rule : RecommendationRule) : RuleRow :=
  { name := rule.name, level := rule.level, message := rule.message,
    input_id_1 := condSlotId rule.conditions 0, value_1 := condSlotValue rule.conditions 0,
    input_id_2 := condSlotId rule.conditions 1, value_2 := condSlotValue rule.conditions 1,
    input_id_3 := condSlotId rule.conditions 2, value_3 := condSlotValue rule.conditions 2 }

/-- `tool_to_rule_rows(tool)` (app.py lines 129-148). -/
def tool_to_rule_rows (tool : ToolDefinition) : List RuleRow :=
  tool.rules.map ruleRowOfRule

/-- One slot of the condition-rebuilding loop in `rule_rows_to_tool`
(app.py lines 157-161): the condition is appended iff the stripped slot id
is truthy and the slot value is not the empty string. -/
def slotCondition (sid : String) (v : Value) : List Condition :=
  if pyStrip sid ≠ "" ∧ v ≠ Value.str "" then
    [{ input_id := pyStrip sid, op := "equals", value := v }]
  else []

/-- The `for idx in range(3)` condition loop of `rule_rows_to_tool`. -/
def ruleRowConditions (row : RuleRow) : List Condition :=
  slotCondition row.input_id_1 row.value_1 ++
    slotCondition row.input_id_2 row.value_2 ++
      slotCondition row.input_id_3 row.value_3

/-- `rule_rows_to_tool(rows)` (app.py lines 151-170): rows with a falsy
(empty) `name` are skipped. -/
def rule_rows_to_tool : List RuleRow → List RecommendationRule
  | [] => []
  | row :: rest =>
    if row.name = "" then rule_rows_to_tool rest
    else { name := row.name, level := row.level, message := row.message,
           conditions := ruleRowConditions row } :: rule_rows_to_tool rest

/-- `DEFAULT_TOOL` (app.py lines 10-30). -/
def DEFAULT_TOOL : ToolDefinition :=
  { name := "New Tool", description := "",
    inputs := [{ id := "example_yes_no", label := "Example Yes/No?",
                 type := "select", options := ["Yes", "No", "Unknown"] }],
    scoring_rules := [{ input_id := "example_yes_no", favor_values := ["Yes"],
                        against_values := ["No"], invert_favor := false }],
    rules := [{ name := "Example Rule", level := "info",
                message := "Example: Rule matched",
                conditions := [{ input_id := "example_yes_no", op := "equals",
                                 value := Value.str "Yes" }] }],
    fallback := some { level := "warning", message := "No rules matched." } }

/-! ## Concrete inputs used by witnesses and counterexamples -/

/-- A tool whose only recommendation rule has an empty condition list. -/
def toolEmptyCond : ToolDefinition :=
  { name := "t", description := "", inputs := [], scoring_rules := [],
    rules := [{ name := "always", level := "success", message := "A",
                conditions := [] }],
    fallback := some ⟨"warning", "fb"⟩ }

/-- Two rules both satisfied by `valuesYesTwo`; the earlier must win. -/
def toolTwoRules : ToolDefinition :=
  { name := "t", description := "", inputs := [], scoring_rules := [],
    rules := [{ name := "r1", level := "error", message := "first",
                conditions := [⟨"q", "equals", Value.str "No"⟩] },
              { name := "r2", level := "success", message := "second",
                conditions := [⟨"q", "equals", Value.str "Yes"⟩,
                               ⟨"p", "equals", Value.num 2⟩] }],
    fallback := none }

/-- Values satisfying the second rule of `toolTwoRules` only. -/
def valuesYesTwo : Values := [("q", Value.str "Yes"), ("p", Value.num 2)]

/-- A tool with one unsatisfiable rule and no fallback. -/
def toolNoFallback : ToolDefinition :=
  { name := "t", description := "", inputs := [], scoring_rules := [],
    rules := [{ name := "r", level := "info", message := "m",
                conditions := [⟨"q", "equals", Value.str "Yes"⟩] }],
    fallback := none }

/-- A tool with one unsatisfiable rule and an explicit fallback. -/
def toolWithFallback : ToolDefinition :=
  { name := "t", description := "", inputs := [], scoring_rules := [],
    rules := [{ name := "r", level := "info", message := "m",
                conditions := [⟨"q", "equals", Value.str "Yes"⟩] }],
    fallback := some ⟨"error", "Stop"⟩ }

/-- A scoring rule whose value sits in `favor_values`. -/
def scoringRuleYes : ScoringRule :=
  { input_id := "q", favor_values := ["Yes"], against_values := ["No"],
    invert_favor := false }

/-- Values answering `q` with `Yes`. -/
def valuesYes : Values := [("q", Value.str "Yes")]

/-- A rule whose single condition references an id absent from any values. -/
def ruleGhost : RecommendationRule :=
  { name := "r", level := "info", message := "m",
    conditions := [⟨"ghost", "equals", Value.str "x"⟩] }

/-- A scoring rule referencing an id absent from any values. -/
def scoringRuleGhost : ScoringRule :=
  { input_id := "ghost", favor_values := ["x"], against_values := [],
    invert_favor := false }

/-- A scoring rule with an empty (falsy) `input_id`. -/
def scoringRuleEmptyId : ScoringRule :=
  { input_id := "", favor_values := ["x"], against_values := [],
    invert_favor := false }

/-- A tool whose only rule has a condition with an empty-string `input_id`. -/
def toolEmptyIdCond : ToolDefinition :=
  { name := "t", description := "", inputs := [], scoring_rules := [],
    rules := [{ name := "r", level := "success", message := "matched",
                conditions := [{ input_id := "", op := "equals",
                                 value := Value.str "x" }] }],
    fallback := some ⟨"warning", "no match"⟩ }

/-- A values mapping that does contain the empty string as a key. -/
def valuesEmptyKey : Values := [("", Value.str "x")]

/-! ## Normal-form predicates for the transcoder round trip -/

/-- The first character, if any, is not whitespace. -/
def headNoWS (l : List Char) : Bool :=
  match l with
  | [] => true
  | c :: _ => !c.isWhitespace

/-- No leading and no trailing whitespace. -/
def noEdgeWS (l : List Char) : Bool :=
  headNoWS l && headNoWS l.reverse

/-- A string that survives the CSV serialize/parse cycle unchanged:
non-empty, already stripped, and containing no comma. -/
def csvEntryOk (s : String) : Bool :=
  decide (s ≠ "") && noEdgeWS s.toList && decide (¬ ',' ∈ s.toList)

/-- An input field that the row cycle reproduces exactly. -/
def inputRoundtripOk (item : InputField) : Bool :=
  decide (item.id ≠ "") && noEdgeWS item.id.toList && noEdgeWS item.label.toList &&
    item.options.all csvEntryOk

/-- A scoring rule that the row cycle reproduces exactly. -/
def scoringRoundtripOk (r : ScoringRule) : Bool :=
  decide (r.input_id ≠ "") && noEdgeWS r.input_id.toList &&
    r.favor_values.all csvEntryOk && r.against_values.all csvEntryOk

/-- A condition that the fixed-arity slot cycle reproduces exactly. -/
def conditionOk (c : Condition) : Bool :=
  decide (c.op = "equals") && decide (c.input_id ≠ "") && noEdgeWS c.input_id.toList &&
    decide (c.value ≠ Value.str "")

/-- A recommendation rule that the row cycle reproduces exactly. -/
def ruleRoundtripOk (r : RecommendationRule) : Bool :=
  decide (r.name ≠ "") && decide (r.conditions.length ≤ 3) &&
    r.conditions.all conditionOk

/-- A tool meeting all the preconditions of the round-trip claim as stated
(non-empty key fields, no commas), whose input label nevertheless carries
leading whitespace that the row cycle strips. -/
def toolUntrimmedLabel : ToolDefinition :=
  { name := "t", description := "",
    inputs := [{ id := "a", label := " x", type := "text", options := [] }],
    scoring_rules := [], rules := [], fallback := none }

/-- An input row whose required key field `id` is empty. -/
def malformedInputRow : InputRow :=
  { id := "", label := "L", type := "text", options_csv := "a, b" }

/-- A scoring row whose required key field `input_id` is empty. -/
def malformedScoringRow : ScoringRow :=
  { input_id := "", favor_values_csv := "Yes", against_values_csv := "No",
    invert_favor := true }

/-- A rule row whose required key field `name` is empty. -/
def malformedRuleRow : RuleRow :=
  { name := "", level := "info", message := "m",
    input_id_1 := "q", value_1 := Value.str "Yes",
    input_id_2 := "", value_2 := Value.str "",
    input_id_3 := "", value_3 := Value.str "" }

/-- A rule row whose first condition slot has an untrimmed id. -/
def ruleRowUntrimmed : RuleRow :=
  { name := "R", level := "info", message := "m",
    input_id_1 := " q ", value_1 := Value.str "Yes",
    input_id_2 := "", value_2 := Value.str "",
    input_id_3 := "", value_3 := Value.str "" }

/-- The rule `rule_rows_to_tool` builds from `ruleRowUntrimmed`. -/
def ruleFromUntrimmed : RecommendationRule :=
  { name := "R", level := "info", message := "m",
    conditions := [{ input_id := "q", op := "equals", value := Value.str "Yes" }] }

example : normalize_options "a,, b" = ["a", "b"] := by decide

example : joinCSV ["Yes", "No", "Unknown"] = "Yes, No, Unknown" := by decide

example : input_rows_to_tool (tool_to_input_rows DEFAULT_TOOL) = DEFAULT_TOOL.inputs := by decide

example : rule_rows_to_tool (tool_to_rule_rows DEFAULT_TOOL) = DEFAULT_TOOL.rules := by decide

example : evaluate_rules
    { name := "t", description := "", inputs := [], scoring_rules := [],
      rules := [{ name := "r", level := "success", message := "Go",
                  conditions := [⟨"q", "equals", Value.str "Yes"⟩] }],
      fallback := some ⟨"warning", "No"⟩ }
    [("q", Value.str "Yes")] = ("success", "Go") := by decide

example : evaluate_rules
    { name := "t", description := "", inputs := [], scoring_rules := [],
      rules := [{ name := "r", level := "success", message := "Go",
                  conditions := [⟨"q", "equals", Value.str "Yes"⟩] }],
      fallback := some ⟨"warning", "No"⟩ }
    [("q", Value.str "No")] = ("warning", "No") := by decide

/-! ## Helper lemmas about the engine -/

lemma evalRulesAux_cons (values : Values) (r : RecommendationRule)
    (rest : List RecommendationRule) :
    evalRulesAux values (r :: rest) =
      if ruleMatches values r then some (r.level, r.message)
      else evalRulesAux values rest := by
  simp only [evalRulesAux, ruleMatches]
  by_cases h1 : r.conditions.isEmpty <;>
    by_cases h2 : r.conditions.all (condHolds values) <;>
      simp [h1, h2]

lemma evalRulesAux_of_no_match (values : Values) :
    ∀ rules : List RecommendationRule,
      (∀ r ∈ rules, ruleMatches values r = false) →
      evalRulesAux values rules = none
  | [], _ => rfl
  | r :: rest, h => by
    rw [evalRulesAux_cons, if_neg (by simp [h r (List.mem_cons_self r rest)])]
    exact evalRulesAux_of_no_match values rest fun x hx => h x (List.mem_cons_of_mem r hx)

lemma evalRulesAux_filter (values : Values) (p : RecommendationRule → Bool) :
    ∀ rules : List RecommendationRule,
      (∀ r ∈ rules, p r = false → ruleMatches values r = false) →
      evalRulesAux values (rules.filter p) = evalRulesAux values rules
  | [], _ => rfl
  | r :: rest, h => by
    have ih := evalRulesAux_filter values p rest
      fun x hx => h x (List.mem_cons_of_mem r hx)
    by_cases hp : p r
    · rw [List.filter_cons_of_pos hp, evalRulesAux_cons, evalRulesAux_cons, ih]
    · have hm : ruleMatches values r = false :=
        h r (List.mem_cons_self r rest) (Bool.not_eq_true _ ▸ hp)
      rw [List.filter_cons_of_neg hp, evalRulesAux_cons values r rest,
        if_neg (by simp [hm]), ih]

lemma evalRulesAux_first (values : Values) :
    ∀ (rules : List RecommendationRule) (i : Nat) (h : i < rules.length),
      (rules.get ⟨i, h⟩).conditions ≠ [] →
      (∀ c ∈ (rules.get ⟨i, h⟩).conditions,
          List.lookup c.input_id values = some c.value) →
      (∀ (j : Nat) (hj : j < i),
          ruleMatches values (rules.get ⟨j, Nat.lt_trans hj h⟩) = false) →
      evalRulesAux values rules =
        some ((rules.get ⟨i, h⟩).level, (rules.get ⟨i, h⟩).message)
  | [], i, h => absurd h (by simp)
  | r :: rest, 0, h => by
    intro hne hall _
    have hm : ruleMatches values r = true := by
      simp only [List.get] at hne hall
      simp only [ruleMatches, Bool.and_eq_true, Bool.not_eq_true',
        List.isEmpty_eq_false, List.all_eq_true]
      exact ⟨hne, fun c hc => by simpa [condHolds] using hall c hc⟩
    rw [evalRulesAux_cons, if_pos (by simp [hm])]
    rfl
  | r :: rest, i + 1, h => by
    intro hne hall hprev
    have h0 : ruleMatches values r = false := hprev 0 (Nat.succ_pos i)
    rw [evalRulesAux_cons, if_neg (by simp [h0])]
    exact evalRulesAux_first values rest i (Nat.lt_of_succ_lt_succ h) hne hall
      fun j hj => hprev (j + 1) (Nat.succ_lt_succ hj)

lemma computeScoresAux_eq (values : Values) :
    ∀ (rs : List ScoringRule) (plus minus : Int),
      computeScoresAux values rs plus minus =
        (plus + (rs.countP (favorPred values) : Int),
         minus + (rs.countP (againstPred values) : Int))
  | [], plus, minus => by simp [computeScoresAux]
  | r :: rest, plus, minus => by
    have ih := computeScoresAux_eq values rest
    by_cases h0 : r.input_id = ""
    · rw [show computeScoresAux values (r :: rest) plus minus =
            computeScoresAux values rest plus minus by simp [computeScoresAux, h0]]
      rw [ih]
      have hf : favorPred values r = false := by simp [favorPred, h0]
      have ha : againstPred values r = false := by simp [againstPred, h0]
      simp [List.countP_cons, hf, ha]
    · by_cases h1 : ruleScore values r = 1
      · rw [show computeScoresAux values (r :: rest) plus minus =
              computeScoresAux values rest (plus + 1) minus by
            simp [computeScoresAux, h0, h1]]
        rw [ih]
        have hf : favorPred values r = true := by simp [favorPred, h0, h1]
        have ha : againstPred values r = false := by simp [againstPred, h1]
        simp only [List.countP_cons, hf, ha, if_true, if_false, Prod.mk.injEq]
        constructor <;> push_cast <;> ring
      · by_cases h2 : ruleScore values r = -1
        · rw [show computeScoresAux values (r :: rest) plus minus =
                computeScoresAux values rest plus (minus + 1) by
              simp [computeScoresAux, h0, h1, h2]]
          rw [ih]
          have hf : favorPred values r = false := by simp [favorPred, h1]
          have ha : againstPred values r = true := by simp [againstPred, h0, h2]
          simp only [List.countP_cons, hf, ha, if_true, if_false, Prod.mk.injEq]
          constructor <;> push_cast <;> ring
        · rw [show computeScoresAux values (r :: rest) plus minus =
                computeScoresAux values rest plus minus by
              simp [computeScoresAux, h0, h1, h2]]
          rw [ih]
          have hf : favorPred values r = false := by simp [favorPred, h1]
          have ha : againstPred values r = false := by simp [againstPred, h2]
          simp [List.countP_cons, hf, ha]

lemma countP_add_countP_le_length {α : Type} (p q : α → Bool)
    (h : ∀ a, ¬(p a = true ∧ q a = true)) :
    ∀ l : List α, l.countP p + l.countP q ≤ l.length
  | [] => by simp
  | a :: l => by
    have ih := countP_add_countP_le_length p q h l
    have ha := h a
    rw [List.countP_cons, List.countP_cons, List.length_cons]
    by_cases h1 : p a = true <;> by_cases h2 : q a = true <;> simp [h1, h2] at ha ⊢ <;> omega

example : compute_scores
    { name := "t", description := "", inputs := [],
      scoring_rules := [{ input_id := "q", favor_values := ["Yes"],
                          against_values := ["No"], invert_favor := false }],
      rules := [], fallback := none }
    [("q", Value.str "Yes")] = (1, 0) := by decide

example : compute_scores
    { name := "t", description := "", inputs := [],
      scoring_rules := [{ input_id := "q", favor_values := ["Yes"],
                          against_values := ["No"], invert_favor := true }],
      rules := [], fallback := none }
    [("q", Value.str "Yes")] = (0, 1) := by decide

/-! ## Claim C1 -/

/-- C1 (counterexample): the claim as stated is false. For `toolEmptyCond`
the first (and only) rule vacuously has all of its conditions holding under
the empty values mapping, yet `evaluate_rules` does not return its
`(level, message)` — it skips the rule and returns the fallback. -/
theorem evaluate_rules_vacuous_rule_counterexample :
    (∀ c ∈ (toolEmptyCond.rules.get ⟨0, by decide⟩).conditions,
        List.lookup c.input_id ([] : Values) = some c.value) ∧
    evaluate_rules toolEmptyCond [] = ("warning", "fb") ∧
    evaluate_rules toolEmptyCond [] ≠
      ((toolEmptyCond.rules.get ⟨0, by decide⟩).level,
       (toolEmptyCond.rules.get ⟨0, by decide⟩).message) := by
  refine ⟨?_, by decide, by decide⟩
  intro c hc
  simp [toolEmptyCond] at hc

/-- C1 (amended): `evaluate_rules` returns the `(level, message)` of the
first rule with a NON-EMPTY condition list all of whose conditions hold,
where a condition holds iff `values[cond.input_id]` is present and strictly
equal to `cond.value`; a missing key is a non-match and no coercion ever
makes a numeric value equal a string value; given two rules both matching,
the earlier one wins regardless of how many conditions each has. -/
theorem evaluate_rules_first_match :
    (∀ (tool : ToolDefinition) (values : Values) (i : Nat)
        (h : i < tool.rules.length),
        (tool.rules.get ⟨i, h⟩).conditions ≠ [] →
        (∀ c ∈ (tool.rules.get ⟨i, h⟩).conditions,
            List.lookup c.input_id values = some c.value) →
        (∀ (j : Nat) (hj : j < i),
            ruleMatches values (tool.rules.get ⟨j, Nat.lt_trans hj h⟩) = false) →
        evaluate_rules tool values =
          ((tool.rules.get ⟨i, h⟩).level, (tool.rules.get ⟨i, h⟩).message)) ∧
    (∀ (values : Values) (c : Condition),
        List.lookup c.input_id values = none → condHolds values c = false) ∧
    (∀ (values : Values) (c : Condition) (n : Int) (s : String),
        List.lookup c.input_id values = some (Value.num n) →
        c.value = Value.str s → condHolds values c = false) := by
  refine ⟨?_, ?_, ?_⟩
  · intro tool values i h hne hall hprev
    have haux := evalRulesAux_first values tool.rules i h hne hall hprev
    simp [evaluate_rules, haux]
  · intro values c hl
    simp [condHolds, hl]
  · intro values c n s hl hv
    simp [condHolds, hl, hv]

/-- C1 (witness): the amended theorem applied at concrete inputs. -/
theorem evaluate_rules_first_match_witness :
    evaluate_rules toolTwoRules valuesYesTwo = ("success", "second") ∧
    condHolds [] ⟨"q", "equals", Value.str "Yes"⟩ = false ∧
    condHolds [("q", Value.num 1)] ⟨"q", "equals", Value.str "1"⟩ = false :=
  ⟨evaluate_rules_first_match.1 toolTwoRules valuesYesTwo 1 (by decide)
      (by decide) (by decide)
      (fun j hj => by
        have hj0 : j = 0 := Nat.lt_one_iff.mp hj
        subst hj0
        exact (by decide :
          ruleMatches valuesYesTwo (toolTwoRules.rules.get ⟨0, Nat.succ_pos 1⟩) = false)),
   evaluate_rules_first_match.2.1 [] ⟨"q", "equals", Value.str "Yes"⟩ (by decide),
   evaluate_rules_first_match.2.2 [("q", Value.num 1)]
      ⟨"q", "equals", Value.str "1"⟩ 1 "1" (by decide) rfl⟩

/-! ## Claim C2 -/

/-- C2: `compute_scores` classifies each scoring rule with non-empty
`input_id` by raw polarity (favor membership first, then against, else 0,
including a missing key), negated by `invert_favor`, and the returned pair
counts exactly the rules classified `+1` (favor side) and `-1` (against
side); rules matching neither set count for neither. -/
theorem compute_scores_classification :
    (∀ (tool : ToolDefinition) (values : Values),
        compute_scores tool values =
          ((tool.scoring_rules.countP (favorPred values) : Int),
           (tool.scoring_rules.countP (againstPred values) : Int))) ∧
    (∀ (values : Values) (r : ScoringRule),
        valueMem (List.lookup r.input_id values) r.favor_values = true →
        ruleScore values r = if r.invert_favor then -1 else 1) ∧
    (∀ (values : Values) (r : ScoringRule),
        valueMem (List.lookup r.input_id values) r.favor_values = false →
        valueMem (List.lookup r.input_id values) r.against_values = true →
        ruleScore values r = if r.invert_favor then 1 else -1) ∧
    (∀ (values : Values) (r : ScoringRule),
        valueMem (List.lookup r.input_id values) r.favor_values = false →
        valueMem (List.lookup r.input_id values) r.against_values = false →
        ruleScore values r = 0) ∧
    (∀ (values : Values) (r : ScoringRule),
        List.lookup r.input_id values = none →
        valueMem (List.lookup r.input_id values) r.favor_values = false ∧
        valueMem (List.lookup r.input_id values) r.against_values = false ∧
        ruleScore values r = 0) := by
  refine ⟨?_, ?_, ?_, ?_, ?_⟩
  · intro tool values
    rw [compute_scores, computeScoresAux_eq]
    simp
  · intro values r h
    simp [ruleScore, h]
  · intro values r h1 h2
    simp [ruleScore, h1, h2]
  · intro values r h1 h2
    simp [ruleScore, h1, h2]
  · intro values r h
    refine ⟨by simp [valueMem, h], by simp [valueMem, h], ?_⟩
    simp [ruleScore, valueMem, h]

/-- C2 (witness): the classification facts applied at concrete inputs. -/
theorem compute_scores_classification_witness :
    compute_scores { name := "t", description := "", inputs := [],
                     scoring_rules := [scoringRuleYes], rules := [],
                     fallback := none } valuesYes = (1, 0) ∧
    valueMem (List.lookup scoringRuleYes.input_id valuesYes)
        scoringRuleYes.favor_values = true ∧
    ruleScore valuesYes scoringRuleYes =
      (if scoringRuleYes.invert_favor then -1 else 1) ∧
    List.lookup scoringRuleGhost.input_id ([] : Values) = none ∧
    ruleScore [] scoringRuleGhost = 0 :=
  ⟨by decide,
   by decide,
   compute_scores_classification.2.1 valuesYes scoringRuleYes (by decide),
   by decide,
   (compute_scores_classification.2.2.2.2 [] scoringRuleGhost (by decide)).2.2⟩

/-! ## Claim C4 -/

/-- C4: whenever no rule matches (all skipped or all failing),
`evaluate_rules` returns the fallback's `(level, message)`, and when the
tool has no fallback at all it returns `("warning", "No rules matched.")`
instead of failing. -/
theorem evaluate_rules_fallback :
    ∀ (tool : ToolDefinition) (values : Values),
      (∀ r ∈ tool.rules, ruleMatches values r = false) →
      (∀ fb : OutcomeMessage, tool.fallback = some fb →
          evaluate_rules tool values = (fb.level, fb.message)) ∧
      (tool.fallback = none →
          evaluate_rules tool values = ("warning", "No rules matched.")) := by
  intro tool values h
  have hnone : evalRulesAux values tool.rules = none :=
    evalRulesAux_of_no_match values tool.rules h
  constructor
  · intro fb hfb
    simp [evaluate_rules, hnone, fallbackOutcome, hfb]
  · intro hfb
    simp [evaluate_rules, hnone, fallbackOutcome, hfb]

/-- C4 (witness): both the explicit-fallback and the missing-fallback
branches at concrete inputs. -/
theorem evaluate_rules_fallback_witness :
    evaluate_rules toolNoFallback [] = ("warning", "No rules matched.") ∧
    evaluate_rules toolWithFallback [] = ("error", "Stop") :=
  ⟨(evaluate_rules_fallback toolNoFallback [] (by decide)).2 rfl,
   (evaluate_rules_fallback toolWithFallback [] (by decide)).1
      ⟨"error", "Stop"⟩ rfl⟩

/-! ## Claim C5 -/

/-- C5: a recommendation rule with an empty condition list is never the rule
selected by `evaluate_rules` — deleting all such rules does not change the
result — and when such a rule is the only rule the fallback is returned. -/
theorem empty_condition_rule_skipped :
    ∀ (tool : ToolDefinition) (values : Values),
      evaluate_rules tool values =
        evaluate_rules
          { tool with rules := tool.rules.filter (fun r => !r.conditions.isEmpty) }
          values ∧
      (∀ r : RecommendationRule, tool.rules = [r] → r.conditions = [] →
          evaluate_rules tool values = fallbackOutcome tool) := by
  intro tool values
  constructor
  · have hfilter := evalRulesAux_filter values (fun r => !r.conditions.isEmpty)
      tool.rules (by
        intro r _ hp
        simp only [Bool.not_eq_false'] at hp
        simp [ruleMatches, hp])
    simp only [evaluate_rules]
    rw [hfilter]
    rfl
  · intro r hrules hconds
    simp [evaluate_rules, hrules, evalRulesAux, hconds]

/-- C5 (witness): the only rule has no conditions, so the fallback is
returned. -/
theorem empty_condition_rule_skipped_witness :
    evaluate_rules toolEmptyCond [] = ("warning", "fb") :=
  (empty_condition_rule_skipped toolEmptyCond []).2
    { name := "always", level := "success", message := "A", conditions := [] }
    rfl rfl

/-! ## Claim C8 -/

/-- C8: `compute_scores` returns a pair of non-negative integers, each at
most the number of scoring rules. -/
theorem compute_scores_bounds :
    ∀ (tool : ToolDefinition) (values : Values),
      0 ≤ (compute_scores tool values).1 ∧
      (compute_scores tool values).1 ≤ (tool.scoring_rules.length : Int) ∧
      0 ≤ (compute_scores tool values).2 ∧
      (compute_scores tool values).2 ≤ (tool.scoring_rules.length : Int) := by
  intro tool values
  rw [compute_scores, computeScoresAux_eq]
  have h1 : List.countP (favorPred values) tool.scoring_rules ≤
      tool.scoring_rules.length := List.countP_le_length _
  have h2 : List.countP (againstPred values) tool.scoring_rules ≤
      tool.scoring_rules.length := List.countP_le_length _
  refine ⟨?_, ?_, ?_, ?_⟩
  · simp
  · simp only [zero_add]
    exact_mod_cast h1
  · simp
  · simp only [zero_add]
    exact_mod_cast h2

/-! ## Claim C10 -/

/-- C10: the two counters of `compute_scores` sum to at most the number of
scoring rules: no scoring rule feeds both counters. -/
theorem compute_scores_sum_bound :
    ∀ (tool : ToolDefinition) (values : Values),
      (compute_scores tool values).1 + (compute_scores tool values).2 ≤
        (tool.scoring_rules.length : Int) := by
  intro tool values
  rw [compute_scores, computeScoresAux_eq]
  have hd : ∀ r : ScoringRule,
      ¬(favorPred values r = true ∧ againstPred values r = true) := by
    intro r ⟨h1, h2⟩
    simp only [favorPred, againstPred, Bool.and_eq_true, decide_eq_true_eq] at h1 h2
    omega
  have := countP_add_countP_le_length (favorPred values) (againstPred values) hd
    tool.scoring_rules
  simp only [zero_add]
  exact_mod_cast this

/-! ## Claim C6 -/

/-- C6 (counterexample): the claim as stated is false. In `evaluate_rules`
an empty-string condition identifier is NOT treated as a non-match: with
`values` containing the key `""`, the condition `{"input_id": "", "value": "x"}`
holds, the rule matches, and the rule's outcome — not the fallback — is
returned. -/
theorem empty_id_condition_counterexample :
    (toolEmptyIdCond.rules.get ⟨0, by decide⟩).conditions =
      [{ input_id := "", op := "equals", value := Value.str "x" }] ∧
    ruleMatches valuesEmptyKey (toolEmptyIdCond.rules.get ⟨0, by decide⟩) = true ∧
    evaluate_rules toolEmptyIdCond valuesEmptyKey = ("success", "matched") ∧
    evaluate_rules toolEmptyIdCond valuesEmptyKey ≠ fallbackOutcome toolEmptyIdCond := by
  refine ⟨by decide, by decide, by decide, by decide⟩

/-- C6 (amended): a recommendation rule containing a condition whose
`input_id` is not a key of `values` never matches, and a scoring rule whose
`input_id` is not a key of `values` contributes to neither counter; in both
functions unknown input-ids and missing values are non-matches and never
cause an exception. `compute_scores` additionally skips scoring rules whose
`input_id` is the empty string, while `evaluate_rules` looks an empty-string
condition `input_id` up in `values` like any other key. -/
theorem dangling_reference_inert :
    (∀ (values : Values) (r : RecommendationRule),
        (∃ c ∈ r.conditions, List.lookup c.input_id values = none) →
        ruleMatches values r = false) ∧
    (∀ (tool : ToolDefinition) (values : Values),
        evaluate_rules tool values =
          evaluate_rules
            { tool with rules := tool.rules.filter (fun r =>
                r.conditions.all (fun c => (List.lookup c.input_id values).isSome)) }
            values) ∧
    (∀ (tool : ToolDefinition) (values : Values),
        compute_scores tool values =
          compute_scores
            { tool with scoring_rules := tool.scoring_rules.filter (fun r =>
                (List.lookup r.input_id values).isSome) }
            values) ∧
    (∀ (values : Values) (r : ScoringRule),
        List.lookup r.input_id values = none → ruleScore values r = 0) ∧
    (∀ (tool : ToolDefinition) (values : Values) (r : ScoringRule),
        r.input_id = "" →
        compute_scores { tool with scoring_rules := r :: tool.scoring_rules } values =
          compute_scores tool values) := by
  have hscore0 : ∀ (values : Values) (r : ScoringRule),
      List.lookup r.input_id values = none → ruleScore values r = 0 := by
    intro values r h
    simp [ruleScore, valueMem, h]
  have hmatch : ∀ (values : Values) (r : RecommendationRule),
      (∃ c ∈ r.conditions, List.lookup c.input_id values = none) →
      ruleMatches values r = false := by
    intro values r ⟨c, hc, hnone⟩
    cases hall : r.conditions.all (condHolds values) with
    | false => simp [ruleMatches, hall]
    | true =>
      have := List.all_eq_true.mp hall c hc
      simp [condHolds, hnone] at this
  refine ⟨hmatch, ?_, ?_, hscore0, ?_⟩
  · intro tool values
    have hfilter := evalRulesAux_filter values
      (fun r => r.conditions.all (fun c => (List.lookup c.input_id values).isSome))
      tool.rules (by
        intro r _ hp
        simp only [List.all_eq_false, Bool.not_eq_true,
          Option.not_isSome_iff_eq_none] at hp
        obtain ⟨c, hc, hnone⟩ := hp
        exact hmatch values r ⟨c, hc, by simpa using hnone⟩)
    simp only [evaluate_rules]
    rw [hfilter]
    rfl
  · intro tool values
    rw [compute_scores, compute_scores, computeScoresAux_eq, computeScoresAux_eq]
    simp only
    have hcongr : ∀ q : ScoringRule → Bool,
        (∀ r, List.lookup r.input_id values = none → q r = false) →
        List.countP q (tool.scoring_rules.filter
          (fun r => (List.lookup r.input_id values).isSome)) =
          List.countP q tool.scoring_rules := by
      intro q hq
      rw [List.countP_filter]
      apply List.countP_congr
      intro r _
      cases hcase : List.lookup r.input_id values with
      | none => simp [hq r hcase, hcase]
      | some v => simp [hcase]
    rw [hcongr (favorPred values) (by
          intro r h
          simp [favorPred, hscore0 values r h]),
        hcongr (againstPred values) (by
          intro r h
          simp [againstPred, hscore0 values r h])]
  · intro tool values r h
    simp [compute_scores, computeScoresAux, h]

/-- C6 (witness): the amended theorem applied at concrete inputs. -/
theorem dangling_reference_inert_witness :
    ruleMatches [] ruleGhost = false ∧
    ruleScore [] scoringRuleGhost = 0 ∧
    compute_scores { toolNoFallback with
        scoring_rules := scoringRuleEmptyId :: toolNoFallback.scoring_rules } [] =
      compute_scores toolNoFallback [] :=
  ⟨dangling_reference_inert.1 [] ruleGhost
      ⟨⟨"ghost", "equals", Value.str "x"⟩, by decide, rfl⟩,
   dangling_reference_inert.2.2.2.1 [] scoringRuleGhost rfl,
   dangling_reference_inert.2.2.2.2 toolNoFallback [] scoringRuleEmptyId rfl⟩

/-! ## Helper lemmas about stripping and CSV splitting -/

lemma asString_toList (s : String) : s.toList.asString = s := rfl

lemma toList_asString (l : List Char) : l.asString.toList = l := rfl

lemma headNoWS_dropWhile (l : List Char) :
    headNoWS (l.dropWhile Char.isWhitespace) = true := by
  induction l with
  | nil => rfl
  | cons c cs ih =>
    by_cases h : c.isWhitespace
    · rw [List.dropWhile_cons_of_pos h]
      exact ih
    · rw [List.dropWhile_cons_of_neg h]
      simp only [headNoWS, Bool.not_eq_true']
      exact Bool.not_eq_true _ ▸ h

lemma dropWhile_eq_self_of_headNoWS (l : List Char) (h : headNoWS l = true) :
    l.dropWhile Char.isWhitespace = l := by
  cases l with
  | nil => rfl
  | cons c cs =>
    simp only [headNoWS, Bool.not_eq_true'] at h
    rw [List.dropWhile_cons_of_neg (by simp [h])]

lemma stripChars_eq_self (l : List Char) (h : noEdgeWS l = true) :
    stripChars l = l := by
  simp only [noEdgeWS, Bool.and_eq_true] at h
  obtain ⟨h1, h2⟩ := h
  unfold stripChars
  rw [dropWhile_eq_self_of_headNoWS l h1,
    dropWhile_eq_self_of_headNoWS l.reverse h2, List.reverse_reverse]

lemma stripChars_space_cons (l : List Char) (h : noEdgeWS l = true) :
    stripChars (' ' :: l) = l := by
  simp only [noEdgeWS, Bool.and_eq_true] at h
  obtain ⟨h1, h2⟩ := h
  unfold stripChars
  rw [List.dropWhile_cons_of_pos (by decide),
    dropWhile_eq_self_of_headNoWS l h1,
    dropWhile_eq_self_of_headNoWS l.reverse h2, List.reverse_reverse]

lemma headNoWS_reverse_dropWhile_reverse (w : List Char) (h : headNoWS w = true) :
    headNoWS ((w.reverse.dropWhile Char.isWhitespace).reverse) = true := by
  obtain ⟨t, ht⟩ := (List.dropWhile_suffix Char.isWhitespace :
    w.reverse.dropWhile Char.isWhitespace <:+ w.reverse)
  have hw : w = (w.reverse.dropWhile Char.isWhitespace).reverse ++ t.reverse := by
    have := congrArg List.reverse ht
    simpa using this.symm
  cases hyr : (w.reverse.dropWhile Char.isWhitespace).reverse with
  | nil => rfl
  | cons a as =>
    rw [hyr] at hw
    rw [hw, List.cons_append] at h
    simpa [headNoWS] using h

lemma noEdgeWS_stripChars (l : List Char) : noEdgeWS (stripChars l) = true := by
  unfold stripChars noEdgeWS
  rw [List.reverse_reverse]
  simp only [Bool.and_eq_true]
  exact ⟨headNoWS_reverse_dropWhile_reverse _ (headNoWS_dropWhile l),
    headNoWS_dropWhile _⟩

lemma pyStrip_eq_self (s : String) (h : noEdgeWS s.toList = true) :
    pyStrip s = s := by
  unfold pyStrip
  rw [stripChars_eq_self _ h, asString_toList]

lemma splitOnChar_ne_nil (sep : Char) : ∀ l : List Char, splitOnChar sep l ≠ []
  | [] => by simp [splitOnChar]
  | c :: cs => by
    unfold splitOnChar
    split
    · simp
    · split <;> simp

lemma splitOnChar_no_sep (sep : Char) :
    ∀ l : List Char, sep ∉ l → splitOnChar sep l = [l]
  | [], _ => rfl
  | c :: cs, h => by
    rw [List.mem_cons, not_or] at h
    obtain ⟨h1, h2⟩ := h
    have hc : ¬ c = sep := fun e => h1 e.symm
    unfold splitOnChar
    rw [splitOnChar_no_sep sep cs h2]
    simp [hc]

lemma splitOnChar_cons (sep c : Char) (cs : List Char) :
    splitOnChar sep (c :: cs) =
      match splitOnChar sep cs with
      | [] => [[c]]
      | g :: gs => if c = sep then [] :: g :: gs else (c :: g) :: gs := by
  rfl

lemma splitOnChar_append (sep : Char) :
    ∀ (a s : List Char), sep ∉ a →
      splitOnChar sep (a ++ sep :: s) = a :: splitOnChar sep s
  | [], s, _ => by
    simp only [List.nil_append]
    rw [splitOnChar_cons]
    cases hgs : splitOnChar sep s with
    | nil => exact absurd hgs (splitOnChar_ne_nil sep s)
    | cons g gs => simp
  | c :: a, s, h => by
    rw [List.mem_cons, not_or] at h
    obtain ⟨h1, h2⟩ := h
    have hc : ¬ c = sep := fun e => h1 e.symm
    rw [List.cons_append, splitOnChar_cons, splitOnChar_append sep a s h2]
    simp [hc]

lemma splitOnChar_joinCSVChars :
    ∀ (gs : List (List Char)) (g : List Char), (∀ x ∈ g :: gs, ',' ∉ x) →
      splitOnChar ',' (joinCSVChars (g :: gs)) = g :: gs.map (fun x => ' ' :: x)
  | [], g, h => by
    rw [show joinCSVChars [g] = g from rfl,
      splitOnChar_no_sep ',' g (h g (List.mem_cons_self g []))]
    rfl
  | g2 :: rest, g, h => by
    rw [show joinCSVChars (g :: g2 :: rest) =
        g ++ ',' :: ' ' :: joinCSVChars (g2 :: rest) from rfl,
      splitOnChar_append ',' g _ (h g (List.mem_cons_self g _))]
    have ih := splitOnChar_joinCSVChars rest g2
      (fun x hx => h x (List.mem_cons_of_mem g hx))
    unfold splitOnChar
    rw [ih]
    simp

lemma csvEntry_props (s : String) (h : csvEntryOk s = true) :
    s ≠ "" ∧ noEdgeWS s.toList = true ∧ ',' ∉ s.toList := by
  simp only [csvEntryOk, Bool.and_eq_true, decide_eq_true_eq] at h
  exact ⟨h.1.1, h.1.2, h.2⟩

lemma asString_eq_empty (l : List Char) : l.asString = "" ↔ l = [] := by
  constructor
  · intro h
    have := congrArg String.toList h
    simpa [toList_asString] using this
  · intro h
    subst h
    rfl

lemma joinCSV_ne_empty (g : String) (gs : List String) (hg : g ≠ "") :
    joinCSV (g :: gs) ≠ "" := by
  unfold joinCSV
  cases gs with
  | nil =>
    rw [show (([g] : List String).map String.toList) = [g.toList] from rfl,
      show joinCSVChars [g.toList] = g.toList from rfl, asString_toList]
    exact hg
  | cons g2 rest =>
    rw [show ((g :: g2 :: rest).map String.toList) =
        g.toList :: g2.toList :: rest.map String.toList from rfl,
      show joinCSVChars (g.toList :: g2.toList :: rest.map String.toList) =
        g.toList ++ ',' :: ' ' :: joinCSVChars (g2.toList :: rest.map String.toList)
        from rfl]
    rw [Ne, asString_eq_empty]
    simp

lemma normalize_join :
    ∀ opts : List String, opts.all csvEntryOk = true →
      normalize_options (joinCSV opts) = opts
  | [], _ => by decide
  | g :: gs, h => by
    simp only [List.all_cons, Bool.and_eq_true] at h
    obtain ⟨hg, hgs⟩ := h
    have hgp := csvEntry_props g hg
    have hne : joinCSV (g :: gs) ≠ "" := joinCSV_ne_empty g gs hgp.1
    unfold normalize_options
    rw [if_neg hne]
    have htl : (joinCSV (g :: gs)).toList =
        joinCSVChars (g.toList :: gs.map String.toList) := rfl
    rw [htl]
    have hsplit : splitOnChar ',' (joinCSVChars (g.toList :: gs.map String.toList)) =
        g.toList :: (gs.map String.toList).map (fun x => ' ' :: x) := by
      apply splitOnChar_joinCSVChars
      intro x hx
      rcases List.mem_cons.mp hx with hx | hx
      · subst hx
        exact hgp.2.2
      · obtain ⟨y, hy, rfl⟩ := List.mem_map.mp hx
        exact (csvEntry_props y (List.all_eq_true.mp hgs y hy)).2.2
    rw [hsplit]
    simp only [List.map_cons, List.map_map]
    rw [stripChars_eq_self g.toList hgp.2.1, asString_toList]
    have hmap : gs.map ((fun gl => (stripChars gl).asString) ∘
        ((fun x => ' ' :: x) ∘ String.toList)) = gs := by
      rw [show gs = gs.map id from (List.map_id gs).symm]
      simp only [List.map_map]
      apply List.map_congr_left
      intro y hy
      simp only [Function.comp, id]
      rw [stripChars_space_cons y.toList
        (csvEntry_props y (List.all_eq_true.mp hgs y hy)).2.1, asString_toList]
    rw [hmap]
    rw [List.filter_eq_self.mpr ?_]
    intro a ha
    rcases List.mem_cons.mp ha with ha | ha
    · subst ha
      simpa using hgp.1
    · simpa using (csvEntry_props a (List.all_eq_true.mp hgs a ha)).1

/-! ## Round-trip lemmas for the three row cycles -/

lemma slotCondition_of_ok (c : Condition) (h : conditionOk c = true) :
    slotCondition c.input_id c.value = [c] := by
  simp only [conditionOk, Bool.and_eq_true, decide_eq_true_eq] at h
  obtain ⟨⟨⟨hop, hne⟩, hedge⟩, hval⟩ := h
  unfold slotCondition
  rw [pyStrip_eq_self _ hedge, if_pos ⟨hne, hval⟩, ← hop]

lemma slotCondition_blank : slotCondition "" (Value.str "") = [] := by decide

lemma input_rows_roundtrip :
    ∀ items : List InputField, items.all inputRoundtripOk = true →
      input_rows_to_tool (items.map inputRowOfField) = items
  | [], _ => rfl
  | item :: rest, h => by
    simp only [List.all_cons, Bool.and_eq_true] at h
    obtain ⟨hi, hrest⟩ := h
    simp only [inputRoundtripOk, Bool.and_eq_true, decide_eq_true_eq] at hi
    obtain ⟨⟨⟨hid, hide⟩, hlab⟩, hopt⟩ := hi
    rw [List.map_cons]
    simp only [input_rows_to_tool]
    rw [if_neg (show ¬ (inputRowOfField item).id = "" from hid)]
    show ({ id := pyStrip item.id, label := pyStrip item.label, type := item.type,
            options := normalize_options (joinCSV item.options) } : InputField) ::
        input_rows_to_tool (rest.map inputRowOfField) = item :: rest
    rw [pyStrip_eq_self item.id hide, pyStrip_eq_self item.label hlab,
      normalize_join item.options hopt, input_rows_roundtrip rest hrest]

lemma scoring_rows_roundtrip :
    ∀ rs : List ScoringRule, rs.all scoringRoundtripOk = true →
      scoring_rows_to_tool (rs.map scoringRowOfRule) = rs
  | [], _ => rfl
  | r :: rest, h => by
    simp only [List.all_cons, Bool.and_eq_true] at h
    obtain ⟨hr, hrest⟩ := h
    simp only [scoringRoundtripOk, Bool.and_eq_true, decide_eq_true_eq] at hr
    obtain ⟨⟨⟨hid, hide⟩, hfav⟩, hagainst⟩ := hr
    rw [List.map_cons]
    simp only [scoring_rows_to_tool]
    rw [if_neg (show ¬ (scoringRowOfRule r).input_id = "" from hid)]
    show ({ input_id := pyStrip r.input_id,
            favor_values := normalize_options (joinCSV r.favor_values),
            against_values := normalize_options (joinCSV r.against_values),
            invert_favor := r.invert_favor } : ScoringRule) ::
        scoring_rows_to_tool (rest.map scoringRowOfRule) = r :: rest
    rw [pyStrip_eq_self r.input_id hide, normalize_join r.favor_values hfav,
      normalize_join r.against_values hagainst, scoring_rows_roundtrip rest hrest]

lemma ruleRowConditions_of_ok (r : RecommendationRule)
    (hlen : r.conditions.length ≤ 3) (hok : r.conditions.all conditionOk = true) :
    ruleRowConditions (ruleRowOfRule r) = r.conditions := by
  have hall := List.all_eq_true.mp hok
  rw [show ruleRowConditions (ruleRowOfRule r) =
      (slotCondition (condSlotId r.conditions 0) (condSlotValue r.conditions 0) ++
        slotCondition (condSlotId r.conditions 1) (condSlotValue r.conditions 1)) ++
          slotCondition (condSlotId r.conditions 2) (condSlotValue r.conditions 2)
      from rfl]
  match hcond : r.conditions with
  | [] => decide
  | [c1] =>
    rw [hcond] at hall
    show (slotCondition c1.input_id c1.value ++
        slotCondition "" (Value.str "")) ++ slotCondition "" (Value.str "") = [c1]
    rw [slotCondition_of_ok c1 (hall c1 (by simp)), slotCondition_blank]
    rfl
  | [c1, c2] =>
    rw [hcond] at hall
    show (slotCondition c1.input_id c1.value ++
        slotCondition c2.input_id c2.value) ++ slotCondition "" (Value.str "") =
        [c1, c2]
    rw [slotCondition_of_ok c1 (hall c1 (by simp)),
      slotCondition_of_ok c2 (hall c2 (by simp)), slotCondition_blank]
    rfl
  | [c1, c2, c3] =>
    rw [hcond] at hall
    show (slotCondition c1.input_id c1.value ++
        slotCondition c2.input_id c2.value) ++ slotCondition c3.input_id c3.value =
        [c1, c2, c3]
    rw [slotCondition_of_ok c1 (hall c1 (by simp)),
      slotCondition_of_ok c2 (hall c2 (by simp)),
      slotCondition_of_ok c3 (hall c3 (by simp))]
    rfl
  | c1 :: c2 :: c3 :: c4 :: more =>
    rw [hcond] at hlen
    simp at hlen

lemma rule_rows_roundtrip :
    ∀ rules : List RecommendationRule, rules.all ruleRoundtripOk = true →
      rule_rows_to_tool (rules.map ruleRowOfRule) = rules
  | [], _ => rfl
  | r :: rest, h => by
    simp only [List.all_cons, Bool.and_eq_true] at h
    obtain ⟨hr, hrest⟩ := h
    have hr' := hr
    simp only [ruleRoundtripOk, Bool.and_eq_true, decide_eq_true_eq] at hr'
    obtain ⟨⟨hname, hlen⟩, hok⟩ := hr'
    rw [List.map_cons]
    simp only [rule_rows_to_tool]
    rw [if_neg (show ¬ (ruleRowOfRule r).name = "" from hname)]
    rw [ruleRowConditions_of_ok r hlen hok, rule_rows_roundtrip rest hrest]
    rfl

/-! ## Claim C3 -/

/-- C3 (counterexample): the claim as stated is false. `toolUntrimmedLabel`
meets every stated precondition — every rule has at most 3 conditions, all
required key fields and condition ids/values are non-empty, and no
serialized string contains a comma — yet the row cycle strips the leading
whitespace of the input label, so the rebuilt model differs. -/
theorem transcoder_roundtrip_counterexample :
    toolUntrimmedLabel.inputs =
      [{ id := "a", label := " x", type := "text", options := [] }] ∧
    toolUntrimmedLabel.scoring_rules = [] ∧
    toolUntrimmedLabel.rules = [] ∧
    (∀ i ∈ toolUntrimmedLabel.inputs,
      i.id ≠ "" ∧ ',' ∉ i.id.toList ∧ ',' ∉ i.label.toList ∧
        ∀ o ∈ i.options, o ≠ "" ∧ ',' ∉ o.toList) ∧
    input_rows_to_tool (tool_to_input_rows toolUntrimmedLabel) ≠
      toolUntrimmedLabel.inputs := by
  exact ⟨rfl, rfl, rfl, by decide, by decide⟩

/-- C3 (amended): for a `ToolDefinition` whose rules have at most 3
conditions each and whose fields are in the transcoder's normal form —
required key fields (input id, scoring `input_id`, rule name) non-empty;
every field that the row cycle strips (input id and label, scoring
`input_id`, condition input-ids) free of leading/trailing whitespace; every
CSV-serialized entry (options, favor/against values) non-empty, comma-free
and free of leading/trailing whitespace; condition values non-empty and
every condition `op` equal to `"equals"` — each of the three
rows-and-back cycles reproduces the original sub-collection, orders and
condition slots included. -/
theorem transcoder_roundtrip :
    ∀ tool : ToolDefinition,
      tool.inputs.all inputRoundtripOk = true →
      tool.scoring_rules.all scoringRoundtripOk = true →
      tool.rules.all ruleRoundtripOk = true →
      input_rows_to_tool (tool_to_input_rows tool) = tool.inputs ∧
      scoring_rows_to_tool (tool_to_scoring_rows tool) = tool.scoring_rules ∧
      rule_rows_to_tool (tool_to_rule_rows tool) = tool.rules := by
  intro tool h1 h2 h3
  exact ⟨input_rows_roundtrip tool.inputs h1,
    scoring_rows_roundtrip tool.scoring_rules h2,
    rule_rows_roundtrip tool.rules h3⟩

/-- C3 (witness): the amended round trip evaluated on `DEFAULT_TOOL`. -/
theorem transcoder_roundtrip_witness :
    input_rows_to_tool (tool_to_input_rows DEFAULT_TOOL) = DEFAULT_TOOL.inputs ∧
    scoring_rows_to_tool (tool_to_scoring_rows DEFAULT_TOOL) =
      DEFAULT_TOOL.scoring_rules ∧
    rule_rows_to_tool (tool_to_rule_rows DEFAULT_TOOL) = DEFAULT_TOOL.rules :=
  transcoder_roundtrip DEFAULT_TOOL (by decide) (by decide) (by decide)

/-! ## Claim C7 -/

/-- C7: each rows-to-model converter silently drops every row whose required
key field (`id` / `input_id` / `name`) is missing, so its output is never
longer than its input. -/
theorem rows_to_model_drop_malformed :
    (∀ rows : List InputRow, (input_rows_to_tool rows).length ≤ rows.length) ∧
    (∀ rows : List ScoringRow, (scoring_rows_to_tool rows).length ≤ rows.length) ∧
    (∀ rows : List RuleRow, (rule_rows_to_tool rows).length ≤ rows.length) ∧
    (∀ (row : InputRow) (rows : List InputRow), row.id = "" →
        input_rows_to_tool (row :: rows) = input_rows_to_tool rows) ∧
    (∀ (row : ScoringRow) (rows : List ScoringRow), row.input_id = "" →
        scoring_rows_to_tool (row :: rows) = scoring_rows_to_tool rows) ∧
    (∀ (row : RuleRow) (rows : List RuleRow), row.name = "" →
        rule_rows_to_tool (row :: rows) = rule_rows_to_tool rows) := by
  refine ⟨?_, ?_, ?_, ?_, ?_, ?_⟩
  · intro rows
    induction rows with
    | nil => simp [input_rows_to_tool]
    | cons row rest ih =>
      by_cases h : row.id = "" <;> simp [input_rows_to_tool, h] <;> omega
  · intro rows
    induction rows with
    | nil => simp [scoring_rows_to_tool]
    | cons row rest ih =>
      by_cases h : row.input_id = "" <;> simp [scoring_rows_to_tool, h] <;> omega
  · intro rows
    induction rows with
    | nil => simp [rule_rows_to_tool]
    | cons row rest ih =>
      by_cases h : row.name = "" <;> simp [rule_rows_to_tool, h] <;> omega
  · intro row rows h
    simp [input_rows_to_tool, h]
  · intro row rows h
    simp [scoring_rows_to_tool, h]
  · intro row rows h
    simp [rule_rows_to_tool, h]

/-- C7 (witness): the dropping equations applied to concrete malformed rows. -/
theorem rows_to_model_drop_malformed_witness :
    input_rows_to_tool [malformedInputRow] = [] ∧
    scoring_rows_to_tool [malformedScoringRow] = [] ∧
    rule_rows_to_tool [malformedRuleRow] = [] :=
  ⟨rows_to_model_drop_malformed.2.2.2.1 malformedInputRow [] rfl,
   rows_to_model_drop_malformed.2.2.2.2.1 malformedScoringRow [] rfl,
   rows_to_model_drop_malformed.2.2.2.2.2 malformedRuleRow [] rfl⟩

/-! ## Claim C9 -/

lemma slotCondition_mem_props (sid : String) (v : Value) (c : Condition)
    (hc : c ∈ slotCondition sid v) :
    c.op = "equals" ∧ c.input_id ≠ "" ∧ noEdgeWS c.input_id.toList = true ∧
      c.value ≠ Value.str "" := by
  unfold slotCondition at hc
  split at hc
  · rename_i hcond
    rw [List.mem_singleton] at hc
    subst hc
    exact ⟨rfl, hcond.1, noEdgeWS_stripChars sid.toList, hcond.2⟩
  · simp at hc

lemma slotCondition_length (sid : String) (v : Value) :
    (slotCondition sid v).length ≤ 1 := by
  unfold slotCondition
  split <;> simp

/-- C9: every rule produced by `rule_rows_to_tool` carries at most 3
conditions, and each condition has `op = "equals"`, a non-empty stripped
`input_id`, and a value different from the empty string. -/
theorem rule_rows_conditions_invariant :
    ∀ rows : List RuleRow, ∀ r ∈ rule_rows_to_tool rows,
      r.conditions.length ≤ 3 ∧
      ∀ c ∈ r.conditions, c.op = "equals" ∧ c.input_id ≠ "" ∧
        noEdgeWS c.input_id.toList = true ∧ c.value ≠ Value.str "" := by
  intro rows
  induction rows with
  | nil =>
    intro r hr
    simp [rule_rows_to_tool] at hr
  | cons row rest ih =>
    intro r hr
    by_cases h : row.name = ""
    · exact ih r (by simpa [rule_rows_to_tool, h] using hr)
    · simp only [rule_rows_to_tool, if_neg h, List.mem_cons] at hr
      rcases hr with hr | hr
      · subst hr
        constructor
        · show (ruleRowConditions row).length ≤ 3
          unfold ruleRowConditions
          have l1 := slotCondition_length row.input_id_1 row.value_1
          have l2 := slotCondition_length row.input_id_2 row.value_2
          have l3 := slotCondition_length row.input_id_3 row.value_3
          simp only [List.length_append]
          omega
        · intro c hc
          unfold ruleRowConditions at hc
          rw [List.mem_append, List.mem_append] at hc
          rcases hc with (hc | hc) | hc
          · exact slotCondition_mem_props _ _ c hc
          · exact slotCondition_mem_props _ _ c hc
          · exact slotCondition_mem_props _ _ c hc
      · exact ih r hr

/-- C9 (witness): the invariant evaluated on a row with an untrimmed slot. -/
theorem rule_rows_conditions_invariant_witness :
    ruleFromUntrimmed.conditions.length ≤ 3 ∧
    ∀ c ∈ ruleFromUntrimmed.conditions, c.op = "equals" ∧ c.input_id ≠ "" ∧
      noEdgeWS c.input_id.toList = true ∧ c.value ≠ Value.str "" :=
  rule_rows_conditions_invariant [ruleRowUntrimmed] ruleFromUntrimmed (by decide)
